import Mathlib

/-!
Verification of the shared camera-model core of the MYNT-EYE-S SDK
(`src/mynteye/api/camera_models/camera.cc`).

The scalar type of the embedding is `ℝ`. The linear-algebra / geometry
library consumed by the core (small vectors and matrices, Euclidean norm,
quaternion rotation, Rodrigues conversion, PnP solving) is an external
collaborator; its elementwise vector/matrix arithmetic and the Euclidean
norm are modelled concretely below, while the opaque solvers (`solvePnP`,
`Rodrigues`, quaternion-to-rotation-matrix) are taken as function
parameters of the algorithms that consume them.
-/

namespace MynteyeModels

/-- Modelled from the spec: a 2D point / vector of the external
linear-algebra library (`ctain::Vector2d`, `cv::Point2f`). -/
structure V2 where
  x : ℝ
  y : ℝ

/-- Modelled from the spec: a 3D point / vector of the external
linear-algebra library (`ctain::Vector3d`, `cv::Point3f`). -/
structure V3 where
  x : ℝ
  y : ℝ
  z : ℝ

/-- Modelled from the spec: a 3x3 matrix of the external linear-algebra
library (`ctain::MatrixXd` of size 3x3, `cv::Mat` 3x3). -/
structure M33 where
  a00 : ℝ
  a01 : ℝ
  a02 : ℝ
  a10 : ℝ
  a11 : ℝ
  a12 : ℝ
  a20 : ℝ
  a21 : ℝ
  a22 : ℝ

/-- Modelled from the spec: a quaternion of the external library
(`ctain::Quaterniond`); only consumed through an opaque
quaternion-to-rotation-matrix conversion. -/
structure Quaterniond where
  w : ℝ
  x : ℝ
  y : ℝ
  z : ℝ

/-- Modelled from the spec: a single-channel image-sized matrix used as a
validity mask (`cv::Mat m_mask`); the core never reads its entries. -/
abbrev Mat : Type := List (List ℝ)

/-- Modelled from the spec: componentwise difference of 2D points. -/
def V2.sub (p q : V2) : V2 := ⟨p.x - q.x, p.y - q.y⟩

/-- Modelled from the spec: componentwise sum of 3D vectors. -/
def V3.add (p q : V3) : V3 := ⟨p.x + q.x, p.y + q.y, p.z + q.z⟩

/-- Modelled from the spec: dividing a 3D vector by a scalar
(`P = P / P(2)` in the source). -/
noncomputable def V3.divScalar (p : V3) (s : ℝ) : V3 := ⟨p.x / s, p.y / s, p.z / s⟩

/-- The zero 2D vector (used only as a `getD` default). -/
def V2.zero : V2 := ⟨0, 0⟩

/-- The zero 3D vector. -/
def V3.zero : V3 := ⟨0, 0, 0⟩

/-- Modelled from the spec: matrix-vector multiply of the external
linear-algebra library. -/
def M33.mulVec (R : M33) (v : V3) : V3 :=
  ⟨R.a00 * v.x + R.a01 * v.y + R.a02 * v.z,
   R.a10 * v.x + R.a11 * v.y + R.a12 * v.z,
   R.a20 * v.x + R.a21 * v.y + R.a22 * v.z⟩

/-- Modelled from the spec: the 3x3 identity matrix
(`cv::Mat::eye(3, 3, CV_64F)`). -/
def M33.eye : M33 := ⟨1, 0, 0, 0, 1, 0, 0, 0, 1⟩

/-- Modelled from the spec: the Euclidean norm of a 2D vector, as supplied
by the external numerical library (`cv::norm`, `ctain` `.norm()`). -/
noncomputable def vnorm (v : V2) : ℝ := Real.sqrt (v.x ^ 2 + v.y ^ 2)

/-- The Euclidean distance between two 2D pixel points, written directly
from the spec's words ("Euclidean pixel distance"); used as the spec-side
formulation compared against the code's `norm (p - q)`. -/
noncomputable def specEuclidDist (p q : V2) : ℝ :=
  Real.sqrt ((p.x - q.x) ^ 2 + (p.y - q.y) ^ 2)

namespace Camera

/-- The lens-model tag (`Camera::ModelType`): pinhole, fisheye
(Kannala-Brandt) or omnidirectional (MEI). -/
inductive ModelType where
  | KANNALA_BRANDT
  | PINHOLE
  | MEI
deriving Repr, DecidableEq

/-- The intrinsic-coefficient count chosen by the `switch` in both
`Camera::Parameters` constructors: 8 for `KANNALA_BRANDT`, 8 for
`PINHOLE`, 9 for `MEI` (and the `default` branch). -/
def intrinsicsOf : ModelType → Int
  | ModelType.KANNALA_BRANDT => 8
  | ModelType.PINHOLE => 8
  | ModelType.MEI => 9

/-- The value type `Camera::Parameters`: model tag, camera name, image size, and the
stored intrinsic-coefficient count `m_nIntrinsics`. -/
structure Parameters where
  m_modelType : ModelType
  m_cameraName : String
  m_imageWidth : Int
  m_imageHeight : Int
  m_nIntrinsics : Int
deriving Repr, DecidableEq

/-- The one-argument constructor `Camera::Parameters::Parameters(ModelType)`:
name empty, width and height 0, `m_nIntrinsics` set by the `switch` on the
model tag. -/
def Parameters.mk1 (modelType : ModelType) : Parameters :=
  ⟨modelType, "", 0, 0, intrinsicsOf modelType⟩

/-- The four-argument constructor
`Camera::Parameters::Parameters(ModelType, const std::string&, int, int)`. -/
def Parameters.mk4 (modelType : ModelType) (cameraName : String)
    (w h : Int) : Parameters :=
  ⟨modelType, cameraName, w, h, intrinsicsOf modelType⟩

/-- Writing through the non-const accessor `ModelType &modelType()`:
replaces `m_modelType` and touches nothing else (in particular
`m_nIntrinsics` is not recomputed). -/
def Parameters.setModelType (p : Parameters) (mt : ModelType) : Parameters :=
  { p with m_modelType := mt }

/-- Writing through the non-const accessor `std::string &cameraName()`. -/
def Parameters.setCameraName (p : Parameters) (s : String) : Parameters :=
  { p with m_cameraName := s }

/-- Writing through the non-const accessor `int &imageWidth()`. -/
def Parameters.setImageWidth (p : Parameters) (w : Int) : Parameters :=
  { p with m_imageWidth := w }

/-- Writing through the non-const accessor `int &imageHeight()`. -/
def Parameters.setImageHeight (p : Parameters) (h : Int) : Parameters :=
  { p with m_imageHeight := h }

/-- The const accessor `ModelType modelType() const`. -/
def Parameters.modelType (p : Parameters) : ModelType := p.m_modelType

/-- The const accessor `int nIntrinsics() const`. -/
def Parameters.nIntrinsics (p : Parameters) : Int := p.m_nIntrinsics

/-- One mutation performed through the non-const reference accessors of
`Camera::Parameters` (there is no accessor, const or not, for
`m_nIntrinsics` other than the read-only `nIntrinsics()`). -/
inductive ParamOp where
  | setModelType (mt : ModelType)
  | setCameraName (s : String)
  | setImageWidth (w : Int)
  | setImageHeight (h : Int)
deriving Repr, DecidableEq

/-- Apply one accessor mutation to a `Parameters` value. -/
def applyOp (p : Parameters) : ParamOp → Parameters
  | ParamOp.setModelType mt => p.setModelType mt
  | ParamOp.setCameraName s => p.setCameraName s
  | ParamOp.setImageWidth w => p.setImageWidth w
  | ParamOp.setImageHeight h => p.setImageHeight h

/-- Apply a sequence of accessor mutations, left to right. -/
def applyOps (p : Parameters) (ops : List ParamOp) : Parameters :=
  ops.foldl applyOp p

end Camera

/-- The abstract `Camera` model: the two direction-reversed transforms that
every concrete lens model supplies (`spaceToPlane`, `liftProjective`), and
the validity mask `m_mask` owned by the base class. -/
structure Camera where
  spaceToPlane : V3 → V2
  liftProjective : V2 → V3
  m_mask : Mat

namespace Camera

/-- The const accessor `const cv::Mat &mask() const`. -/
def mask (c : Camera) : Mat := c.m_mask

/-- Writing through the non-const accessor `cv::Mat &mask()`: replaces the
mask, leaving the transforms untouched. -/
def setMask (c : Camera) (m : Mat) : Camera := { c with m_mask := m }

/-- The source function `Camera::estimateExtrinsics`: back-project each image point via
`liftProjective`, divide the lifted ray `P` by its third component
`P(2)`, keep the first two components as the idealized point `Ms.at(i)`,
then call the external PnP solver on the object points and the idealized
points with a 3x3 identity camera matrix and an empty distortion set.
The opaque solver `cv::solvePnP` is a parameter `pnp`. -/
noncomputable def estimateExtrinsics (c : Camera)
    (pnp : List V3 → List V2 → M33 → List ℝ → V3 × V3)
    (objectPoints : List V3) (imagePoints : List V2) : V3 × V3 :=
  let Ms := imagePoints.map (fun ip =>
    let P := c.liftProjective ⟨ip.x, ip.y⟩
    let Pn := P.divScalar P.z
    (⟨Pn.x, Pn.y⟩ : V2))
  pnp objectPoints Ms M33.eye []

/-- The source function `Camera::reprojectionDist`: project both camera-frame points with
`spaceToPlane` and return the norm of the difference of the pixel
points. -/
noncomputable def reprojectionDist (c : Camera) (P1 P2 : V3) : ℝ :=
  let p1 := c.spaceToPlane P1
  let p2 := c.spaceToPlane P2
  vnorm (p1.sub p2)

/-- The source function `Camera::reprojectionError` (single point): rotate `P` by the rotation
matrix of `camera_q`, translate by `camera_t`, project via
`spaceToPlane`, and return the norm of the difference to `observed_p`.
The opaque quaternion-to-rotation-matrix conversion of the external
library is a parameter `toRotationMatrix`. -/
noncomputable def reprojectionErrorSingle (c : Camera)
    (toRotationMatrix : Quaterniond → M33)
    (P : V3) (camera_q : Quaterniond) (camera_t : V3)
    (observed_p : V2) : ℝ :=
  let P_cam := ((toRotationMatrix camera_q).mulVec P).add camera_t
  let p := c.spaceToPlane P_cam
  vnorm (p.sub observed_p)

/-- The source function `Camera::projectPoints`: convert `rvec` to a rotation matrix by one
call of the external Rodrigues conversion (parameter `rodrigues`), then
for each object point `P` compute `R * P + t`, project via
`spaceToPlane`, and `push_back` the pixel point onto the caller-supplied
output vector `imagePoints` (which is never cleared). -/
def projectPoints (c : Camera) (rodrigues : V3 → M33)
    (objectPoints : List V3) (rvec tvec : V3)
    (imagePoints : List V2) : List V2 :=
  let R := rodrigues rvec
  imagePoints ++ objectPoints.map (fun P =>
    c.spaceToPlane ((R.mulVec P).add tvec))

/-- The summed pixel error of one view inside the multi-view
`Camera::reprojectionError` loop body: project the view's object points
through `projectPoints` into a fresh vector `estImagePoints`, then sum
`norm(imagePoints[i][j] - estImagePoints[j])` over
`j < imagePoints.at(i).size()`. -/
noncomputable def viewErrSum (c : Camera) (rodrigues : V3 → M33)
    (objPts : List V3) (imgPts : List V2) (rvec tvec : V3) : ℝ :=
  let estImagePoints := c.projectPoints rodrigues objPts rvec tvec []
  ∑ j ∈ Finset.range imgPts.length,
    vnorm ((imgPts.getD j V2.zero).sub (estImagePoints.getD j V2.zero))

/-- The source function `Camera::reprojectionError` (multi-view): loop `i` over
`objectPoints.size()` views, accumulate each view's summed error
(`totalErr`) and point count (`pointsSoFar`, taken from
`imagePoints.at(i).size()`); when per-view errors are requested write
`err / pointCount` for each view; return `totalErr / pointsSoFar`.
The result is the aggregate together with the per-view error list (empty
when not requested, mirroring `_perViewErrors.needed()`). -/
noncomputable def reprojectionErrorViews (c : Camera)
    (rodrigues : V3 → M33)
    (objectPoints : List (List V3)) (imagePoints : List (List V2))
    (rvecs tvecs : List V3)
    (computePerViewErrors : Bool) : ℝ × List ℝ :=
  let imageCount := objectPoints.length
  let err := fun i =>
    c.viewErrSum rodrigues (objectPoints.getD i []) (imagePoints.getD i [])
      (rvecs.getD i V3.zero) (tvecs.getD i V3.zero)
  let pointCount := fun i => ((imagePoints.getD i []).length : ℝ)
  let totalErr := ∑ i ∈ Finset.range imageCount, err i
  let pointsSoFar := ∑ i ∈ Finset.range imageCount, pointCount i
  let perViewErrors :=
    if computePerViewErrors then
      (List.range imageCount).map (fun i => err i / pointCount i)
    else []
  (totalErr / pointsSoFar, perViewErrors)

/-- The idealized, distortion-free 2D point written from the spec's words:
back-project the pixel point via `liftProjective`, normalize the resulting
ray so its forward (third) component equals 1, and keep the first two
components. Compared against `estimateExtrinsics`. -/
noncomputable def specIdealizedPoint (c : Camera) (p : V2) : V2 :=
  let ray := c.liftProjective p
  let ideal := ray.divScalar ray.z
  ⟨ideal.x, ideal.y⟩

/-- The per-point reprojection distance written from the spec's words: the
Euclidean pixel distance between an observed image point and the
projection of the corresponding object point moved into the camera frame
by the view's rotation and translation. Compared against the multi-view
`reprojectionError`. -/
noncomputable def specPerPointDist (c : Camera) (rodrigues : V3 → M33)
    (objPt : V3) (imgPt : V2) (rvec tvec : V3) : ℝ :=
  specEuclidDist imgPt (c.spaceToPlane (((rodrigues rvec).mulVec objPt).add tvec))

open scoped Classical in
/-- The idealization loop of `estimateExtrinsics` with an explicit guard on
the division `P = P / P(2)`: `none` as soon as some lifted ray has third
component zero (the division-by-zero case the source performs
unguarded), otherwise the same idealized points the source computes. -/
noncomputable def liftNormalizeChecked (c : Camera) : List V2 → Option (List V2)
  | [] => some []
  | ip :: rest =>
    let P := c.liftProjective ⟨ip.x, ip.y⟩
    if P.z = 0 then none
    else
      match liftNormalizeChecked c rest with
      | none => none
      | some ms =>
        let Pn := P.divScalar P.z
        some ((⟨Pn.x, Pn.y⟩ : V2) :: ms)

/-- The function `estimateExtrinsics` with the division guard of `liftNormalizeChecked`:
`none` exactly when the unguarded source code would divide by zero. -/
noncomputable def estimateExtrinsicsChecked (c : Camera)
    (pnp : List V3 → List V2 → M33 → List ℝ → V3 × V3)
    (objectPoints : List V3) (imagePoints : List V2) : Option (V3 × V3) :=
  match liftNormalizeChecked c imagePoints with
  | none => none
  | some Ms => some (pnp objectPoints Ms M33.eye [])

end Camera

/-- A concrete lens model instance (ideal pinhole with unit focal length)
used to instantiate the theorems on concrete inputs. -/
def camW : Camera :=
  ⟨fun P => ⟨P.x, P.y⟩, fun p => ⟨p.x, p.y, 1⟩, ([] : Mat)⟩

/-- A concrete stand-in for the external Rodrigues conversion that sends
every rotation vector to the identity matrix. -/
def rodW : V3 → M33 := fun _ => M33.eye

/-- A concrete stand-in for the external PnP solver. -/
def pnpW : List V3 → List V2 → M33 → List ℝ → V3 × V3 :=
  fun _ Ms _ _ => (⟨(Ms.getD 0 V2.zero).x, (Ms.getD 0 V2.zero).y, 0⟩, V3.zero)

/-- A concrete stand-in for the external quaternion-to-rotation-matrix
conversion. -/
def toRotW : Quaterniond → M33 := fun _ => M33.eye

/-- Four concrete object points. -/
def OPW4 : List V3 := [⟨0, 0, 1⟩, ⟨1, 0, 1⟩, ⟨0, 1, 1⟩, ⟨1, 1, 1⟩]

/-- Four concrete image points. -/
def IPW4 : List V2 := [⟨0, 0⟩, ⟨1, 0⟩, ⟨0, 1⟩, ⟨1, 1⟩]

/-- Three concrete object points on the optical axis. -/
def OP3W : List V3 := [⟨0, 0, 1⟩, ⟨0, 0, 1⟩, ⟨0, 0, 1⟩]

/-- Three concrete image points at the principal point. -/
def IP3W : List V2 := [⟨0, 0⟩, ⟨0, 0⟩, ⟨0, 0⟩]

/-- Five concrete object points on the optical axis. -/
def OP5W : List V3 := [⟨0, 0, 1⟩, ⟨0, 0, 1⟩, ⟨0, 0, 1⟩, ⟨0, 0, 1⟩, ⟨0, 0, 1⟩]

/-- Five concrete image points at the principal point. -/
def IP5W : List V2 := [⟨0, 0⟩, ⟨0, 0⟩, ⟨0, 0⟩, ⟨0, 0⟩, ⟨0, 0⟩]

/-- The code's pixel error `norm (p - q)` is the spec's Euclidean pixel
distance. -/
theorem vnorm_sub_eq_specEuclidDist (p q : V2) :
    vnorm (p.sub q) = specEuclidDist p q := by
  simp [vnorm, specEuclidDist, V2.sub]

/-- The external Euclidean norm is nonnegative. -/
theorem vnorm_nonneg (v : V2) : 0 ≤ vnorm v :=
  Real.sqrt_nonneg _

/-- The external Euclidean norm of a difference vanishes exactly when the
two pixel points coincide. -/
theorem vnorm_sub_eq_zero_iff (p q : V2) : vnorm (p.sub q) = 0 ↔ p = q := by
  constructor
  · intro h
    simp only [vnorm, V2.sub] at h
    have hnn : 0 ≤ (p.x - q.x) ^ 2 + (p.y - q.y) ^ 2 := by positivity
    have h2 : (p.x - q.x) ^ 2 + (p.y - q.y) ^ 2 = 0 := (Real.sqrt_eq_zero hnn).mp h
    have hx : p.x = q.x := by nlinarith [sq_nonneg (p.x - q.x), sq_nonneg (p.y - q.y)]
    have hy : p.y = q.y := by nlinarith [sq_nonneg (p.x - q.x), sq_nonneg (p.y - q.y)]
    cases p
    cases q
    simp_all
  · intro h
    subst h
    simp [vnorm, V2.sub]

/-- One accessor mutation never changes the stored `m_nIntrinsics`. -/
theorem applyOp_nIntrinsics (p : Camera.Parameters) (op : Camera.ParamOp) :
    (Camera.applyOp p op).nIntrinsics = p.nIntrinsics := by
  cases op <;> rfl

/-- No sequence of accessor mutations changes the stored `m_nIntrinsics`. -/
theorem applyOps_nIntrinsics (ops : List Camera.ParamOp) (p : Camera.Parameters) :
    (Camera.applyOps p ops).nIntrinsics = p.nIntrinsics := by
  induction ops generalizing p with
  | nil => rfl
  | cons op rest ih =>
    show (Camera.applyOps (Camera.applyOp p op) rest).nIntrinsics = p.nIntrinsics
    rw [ih, applyOp_nIntrinsics]

/-- A sequence of accessor mutations that never assigns through the
non-const `modelType()` accessor leaves the model tag unchanged. -/
theorem applyOps_modelType (ops : List Camera.ParamOp) (p : Camera.Parameters)
    (h : ∀ mt, Camera.ParamOp.setModelType mt ∉ ops) :
    (Camera.applyOps p ops).modelType = p.modelType := by
  induction ops generalizing p with
  | nil => rfl
  | cons op rest ih =>
    have hrest : ∀ mt, Camera.ParamOp.setModelType mt ∉ rest := by
      intro mt hm
      exact h mt (List.mem_cons_of_mem _ hm)
    show (Camera.applyOps (Camera.applyOp p op) rest).modelType = p.modelType
    rw [ih _ hrest]
    cases op with
    | setModelType mt => exact absurd (List.mem_cons_self _ _) (h mt)
    | setCameraName s => rfl
    | setImageWidth w => rfl
    | setImageHeight h => rfl

/-- C1 counterexample: constructing `Parameters` with `PINHOLE` and then
assigning `MEI` through the non-const `modelType()` accessor leaves
`nIntrinsics()` at 8, although the claim demands 9 whenever the current
model tag is `MEI`. -/
theorem nIntrinsics_modelType_divergence :
    ((Camera.Parameters.mk1 Camera.ModelType.PINHOLE).setModelType
        Camera.ModelType.MEI).modelType = Camera.ModelType.MEI
    ∧ ((Camera.Parameters.mk1 Camera.ModelType.PINHOLE).setModelType
        Camera.ModelType.MEI).nIntrinsics = 8
    ∧ ((Camera.Parameters.mk1 Camera.ModelType.PINHOLE).setModelType
        Camera.ModelType.MEI).nIntrinsics ≠ 9 := by
  refine ⟨rfl, rfl, ?_⟩
  decide

/-- C1 (amended): both constructors derive `nIntrinsics` from the model tag
(8 for `PINHOLE` and `KANNALA_BRANDT`, 9 for `MEI`); no sequence of
accessor mutations ever changes the stored `nIntrinsics`; and the value
stays consistent with the current model tag under every mutation sequence
that does not assign through the non-const `modelType()` accessor. -/
theorem nIntrinsics_construction_invariant (mt : Camera.ModelType)
    (name : String) (w h : Int) (ops : List Camera.ParamOp)
    (hops : ∀ mt', Camera.ParamOp.setModelType mt' ∉ ops) :
    (Camera.Parameters.mk1 mt).nIntrinsics = Camera.intrinsicsOf mt
    ∧ (Camera.Parameters.mk4 mt name w h).nIntrinsics = Camera.intrinsicsOf mt
    ∧ Camera.intrinsicsOf Camera.ModelType.PINHOLE = 8
    ∧ Camera.intrinsicsOf Camera.ModelType.KANNALA_BRANDT = 8
    ∧ Camera.intrinsicsOf Camera.ModelType.MEI = 9
    ∧ (∀ (p : Camera.Parameters) (anyOps : List Camera.ParamOp),
        (Camera.applyOps p anyOps).nIntrinsics = p.nIntrinsics)
    ∧ (Camera.applyOps (Camera.Parameters.mk1 mt) ops).nIntrinsics
        = Camera.intrinsicsOf
            ((Camera.applyOps (Camera.Parameters.mk1 mt) ops).modelType) := by
  refine ⟨rfl, rfl, rfl, rfl, rfl, fun p anyOps => applyOps_nIntrinsics anyOps p, ?_⟩
  rw [applyOps_nIntrinsics, applyOps_modelType _ _ hops]
  rfl

/-- C1 witness: a construction followed by a width mutation keeps
`nIntrinsics` consistent with the model tag. -/
theorem nIntrinsics_construction_invariant_witness :
    (Camera.applyOps (Camera.Parameters.mk1 Camera.ModelType.PINHOLE)
        [Camera.ParamOp.setImageWidth 1280]).nIntrinsics
      = Camera.intrinsicsOf
          ((Camera.applyOps (Camera.Parameters.mk1 Camera.ModelType.PINHOLE)
              [Camera.ParamOp.setImageWidth 1280]).modelType) :=
  (nIntrinsics_construction_invariant Camera.ModelType.PINHOLE "camera" 640 480
    [Camera.ParamOp.setImageWidth 1280]
    (by intro mt' hm; simp at hm)).2.2.2.2.2.2

/-- C2: `estimateExtrinsics` returns exactly the external PnP solver's
output on the original object points, the idealized (lift-and-normalize)
image points, the 3x3 identity camera matrix and an empty distortion set;
each normalized ray has forward component 1. -/
theorem estimateExtrinsics_spec (c : Camera)
    (pnp : List V3 → List V2 → M33 → List ℝ → V3 × V3)
    (OP : List V3) (IP : List V2)
    (hlen : OP.length = IP.length) (h4 : 4 ≤ OP.length)
    (hz : ∀ p ∈ IP, (c.liftProjective p).z ≠ 0) :
    c.estimateExtrinsics pnp OP IP
      = pnp OP (IP.map (Camera.specIdealizedPoint c)) M33.eye []
    ∧ (∀ p ∈ IP, ((c.liftProjective p).divScalar (c.liftProjective p).z).z = 1) := by
  constructor
  · rfl
  · intro p hp
    simp only [V3.divScalar]
    exact div_self (hz p hp)

/-- C2 witness: the contract at four concrete correspondences through the
concrete pinhole instance. -/
theorem estimateExtrinsics_spec_witness :
    camW.estimateExtrinsics pnpW OPW4 IPW4
      = pnpW OPW4 (IPW4.map (Camera.specIdealizedPoint camW)) M33.eye [] :=
  (estimateExtrinsics_spec camW pnpW OPW4 IPW4 rfl
    (by norm_num [OPW4])
    (by intro p hp; norm_num [camW])).1

/-- C5: the single-point `reprojectionError` is the Euclidean pixel
distance between the observation and the projection of the point rotated
by the quaternion's rotation matrix and then translated into the camera
frame. -/
theorem reprojectionError_single_spec (c : Camera)
    (toRot : Quaterniond → M33) (P : V3) (q : Quaterniond) (t : V3)
    (obs : V2) :
    c.reprojectionErrorSingle toRot P q t obs
      = specEuclidDist (c.spaceToPlane (((toRot q).mulVec P).add t)) obs := by
  simp only [Camera.reprojectionErrorSingle]
  exact vnorm_sub_eq_specEuclidDist _ _

/-- C8: replacing the mask (setting, overwriting or clearing it) changes
none of the numeric results of `estimateExtrinsics`, `projectPoints`,
either `reprojectionError` overload, or `reprojectionDist`, while the
mask accessor does observe the new mask. -/
theorem mask_independence (c : Camera) (m : Mat)
    (pnp : List V3 → List V2 → M33 → List ℝ → V3 × V3)
    (rod : V3 → M33) (toRot : Quaterniond → M33)
    (OP O : List V3) (IP init : List V2) (rv tv : V3)
    (OPs : List (List V3)) (IPs : List (List V2)) (rvs tvs : List V3)
    (b : Bool) (P : V3) (q : Quaterniond) (t : V3) (obs : V2) (P1 P2 : V3) :
    ((c.setMask m).estimateExtrinsics pnp OP IP = c.estimateExtrinsics pnp OP IP)
    ∧ ((c.setMask m).projectPoints rod O rv tv init = c.projectPoints rod O rv tv init)
    ∧ ((c.setMask m).reprojectionErrorViews rod OPs IPs rvs tvs b
        = c.reprojectionErrorViews rod OPs IPs rvs tvs b)
    ∧ ((c.setMask m).reprojectionErrorSingle toRot P q t obs
        = c.reprojectionErrorSingle toRot P q t obs)
    ∧ ((c.setMask m).reprojectionDist P1 P2 = c.reprojectionDist P1 P2)
    ∧ (c.setMask m).mask = m :=
  ⟨rfl, rfl, rfl, rfl, rfl, rfl⟩

/-- The function `projectPoints` grows the caller-supplied output vector by exactly one
entry per input point. -/
theorem projectPoints_length (c : Camera) (rod : V3 → M33) (O : List V3)
    (rv tv : V3) (init : List V2) :
    (c.projectPoints rod O rv tv init).length = init.length + O.length := by
  simp [Camera.projectPoints]

/-- The entry appended by `projectPoints` for the `i`-th input point is the
`spaceToPlane` image of that point rotated by the single Rodrigues matrix
and translated. -/
theorem projectPoints_getD (c : Camera) (rod : V3 → M33) (O : List V3)
    (rv tv : V3) (init : List V2) (i : ℕ) (h : i < O.length) :
    (c.projectPoints rod O rv tv init).getD (init.length + i) V2.zero
      = c.spaceToPlane (((rod rv).mulVec (O.getD i V3.zero)).add tv) := by
  simp only [Camera.projectPoints, List.getD_eq_getElem?_getD]
  rw [List.getElem?_append_right (Nat.le_add_right _ _)]
  simp [Nat.add_sub_cancel_left, List.getElem?_eq_getElem,
    List.getElem?_map, List.getElem?_eq_getElem h,
    List.getD_eq_getElem O V3.zero h]

/-- C4: `projectPoints` (into an empty output vector) produces exactly one
pixel point per input point, in order; every input is passed through
`spaceToPlane` after being rotated by the one Rodrigues matrix of the call
and translated, with no point skipped or special-cased. -/
theorem projectPoints_spec (c : Camera) (rod : V3 → M33) (O : List V3)
    (rv tv : V3) :
    ((c.projectPoints rod O rv tv []).length = O.length)
    ∧ ∀ i, i < O.length →
        (c.projectPoints rod O rv tv []).getD i V2.zero
          = c.spaceToPlane (((rod rv).mulVec (O.getD i V3.zero)).add tv) := by
  constructor
  · simpa using projectPoints_length c rod O rv tv []
  · intro i hi
    simpa using projectPoints_getD c rod O rv tv [] i hi

/-- C4 witness: the first projected point of a concrete batch. -/
theorem projectPoints_spec_witness :
    (camW.projectPoints rodW OPW4 V3.zero V3.zero []).getD 0 V2.zero
      = camW.spaceToPlane (((rodW V3.zero).mulVec (OPW4.getD 0 V3.zero)).add V3.zero) :=
  (projectPoints_spec camW rodW OPW4 V3.zero V3.zero).2 0 (by norm_num [OPW4])

/-- C7: with a Rodrigues conversion sending the zero rotation vector to the
identity matrix, `projectPoints` at zero rotation vector and zero
translation is exactly `spaceToPlane` mapped over the input points. -/
theorem projectPoints_identity_rotation (c : Camera) (rod : V3 → M33)
    (hrod : rod V3.zero = M33.eye) (O : List V3) :
    c.projectPoints rod O V3.zero V3.zero [] = O.map c.spaceToPlane := by
  simp only [Camera.projectPoints, hrod, List.nil_append]
  have hid : ∀ P : V3, (M33.eye.mulVec P).add V3.zero = P := by
    intro P
    cases P
    simp [M33.eye, M33.mulVec, V3.add, V3.zero]
  simp [hid]

/-- C7 witness: identity pose on a concrete batch. -/
theorem projectPoints_identity_rotation_witness :
    camW.projectPoints rodW OPW4 V3.zero V3.zero [] = OPW4.map camW.spaceToPlane :=
  projectPoints_identity_rotation camW rodW rfl OPW4

/-- C9: `projectPoints` appends to the caller-supplied output vector
without clearing it: the result has `K + N` entries, keeps the first `K`
unchanged, stores the in-order projections at positions `K..K+N-1`, and
has size `N` exactly when the output vector starts empty. -/
theorem projectPoints_append_spec (c : Camera) (rod : V3 → M33) (O : List V3)
    (rv tv : V3) (init : List V2) :
    ((c.projectPoints rod O rv tv init).length = init.length + O.length)
    ∧ ((c.projectPoints rod O rv tv init).take init.length = init)
    ∧ (∀ i, i < O.length →
        (c.projectPoints rod O rv tv init).getD (init.length + i) V2.zero
          = c.spaceToPlane (((rod rv).mulVec (O.getD i V3.zero)).add tv))
    ∧ ((c.projectPoints rod O rv tv init).length = O.length ↔ init = []) := by
  refine ⟨projectPoints_length c rod O rv tv init, ?_,
    fun i hi => projectPoints_getD c rod O rv tv init i hi, ?_⟩
  · simp [Camera.projectPoints, List.take_left]
  · rw [projectPoints_length]
    constructor
    · intro h
      have h0 : init.length = 0 := by omega
      exact List.length_eq_zero.mp h0
    · intro h
      subst h
      simp

/-- C9 witness: appending one projection after a pre-existing entry. -/
theorem projectPoints_append_spec_witness :
    (camW.projectPoints rodW OPW4 V3.zero V3.zero [⟨7, 8⟩]).getD
        (([⟨7, 8⟩] : List V2).length + 0) V2.zero
      = camW.spaceToPlane (((rodW V3.zero).mulVec (OPW4.getD 0 V3.zero)).add V3.zero) :=
  (projectPoints_append_spec camW rodW OPW4 V3.zero V3.zero [⟨7, 8⟩]).2.2.1 0
    (by norm_num [OPW4])

/-- C6: `reprojectionDist` is the Euclidean pixel distance between the two
`spaceToPlane` projections, hence nonnegative and zero exactly when the
projections coincide; the single-point `reprojectionError` is nonnegative
and zero exactly when projection and observation coincide; the multi-view
`reprojectionError` aggregate is nonnegative. -/
theorem reprojection_metrics_spec (c : Camera) (toRot : Quaterniond → M33)
    (rod : V3 → M33) (P1 P2 P : V3) (q : Quaterniond) (t : V3) (obs : V2)
    (OPs : List (List V3)) (IPs : List (List V2)) (rvs tvs : List V3)
    (b : Bool) :
    (c.reprojectionDist P1 P2
        = specEuclidDist (c.spaceToPlane P1) (c.spaceToPlane P2))
    ∧ (0 ≤ c.reprojectionDist P1 P2)
    ∧ (c.reprojectionDist P1 P2 = 0 ↔ c.spaceToPlane P1 = c.spaceToPlane P2)
    ∧ (0 ≤ c.reprojectionErrorSingle toRot P q t obs)
    ∧ (c.reprojectionErrorSingle toRot P q t obs = 0
        ↔ c.spaceToPlane (((toRot q).mulVec P).add t) = obs)
    ∧ (0 ≤ (c.reprojectionErrorViews rod OPs IPs rvs tvs b).1) := by
  refine ⟨vnorm_sub_eq_specEuclidDist _ _, vnorm_nonneg _,
    vnorm_sub_eq_zero_iff _ _, vnorm_nonneg _, vnorm_sub_eq_zero_iff _ _, ?_⟩
  simp only [Camera.reprojectionErrorViews]
  apply div_nonneg
  · apply Finset.sum_nonneg
    intro i _
    simp only [Camera.viewErrSum]
    apply Finset.sum_nonneg
    intro j _
    exact vnorm_nonneg _
  · apply Finset.sum_nonneg
    intro i _
    positivity

/-- The checked idealization loop succeeds, with exactly the idealized
points of the unguarded source loop, whenever no lifted ray has forward
component zero. -/
theorem liftNormalizeChecked_eq (c : Camera) (IP : List V2)
    (hz : ∀ p ∈ IP, (c.liftProjective p).z ≠ 0) :
    Camera.liftNormalizeChecked c IP
      = some (IP.map (fun ip =>
          let P := c.liftProjective ⟨ip.x, ip.y⟩
          let Pn := P.divScalar P.z
          (⟨Pn.x, Pn.y⟩ : V2))) := by
  induction IP with
  | nil => rfl
  | cons ip rest ih =>
    have hzi : (c.liftProjective ⟨ip.x, ip.y⟩).z ≠ 0 :=
      hz ip (List.mem_cons_self _ _)
    rw [Camera.liftNormalizeChecked]
    simp only [if_neg hzi, ih (fun p hp => hz p (List.mem_cons_of_mem _ hp))]
    rfl

/-- C10: under the precondition that `liftProjective` returns a ray with
nonzero forward component for every supplied image point, the guarded
variant of `estimateExtrinsics` never takes its division-by-zero branch
and returns exactly the unguarded source result. -/
theorem estimateExtrinsics_division_safe (c : Camera)
    (pnp : List V3 → List V2 → M33 → List ℝ → V3 × V3)
    (OP : List V3) (IP : List V2)
    (hz : ∀ p ∈ IP, (c.liftProjective p).z ≠ 0) :
    c.estimateExtrinsicsChecked pnp OP IP
      = some (c.estimateExtrinsics pnp OP IP) := by
  unfold Camera.estimateExtrinsicsChecked
  rw [liftNormalizeChecked_eq c IP hz]
  rfl

/-- C10 witness: the guarded variant succeeds on four concrete
correspondences through the concrete pinhole instance. -/
theorem estimateExtrinsics_division_safe_witness :
    camW.estimateExtrinsicsChecked pnpW OPW4 IPW4
      = some (camW.estimateExtrinsics pnpW OPW4 IPW4) :=
  estimateExtrinsics_division_safe camW pnpW OPW4 IPW4
    (by intro p hp; norm_num [camW])

/-- When a view's object- and image-point counts match, the loop body's
summed error is the sum of the per-point Euclidean pixel distances. -/
theorem viewErrSum_eq (c : Camera) (rod : V3 → M33) (objPts : List V3)
    (imgPts : List V2) (rv tv : V3) (hcnt : objPts.length = imgPts.length) :
    c.viewErrSum rod objPts imgPts rv tv
      = ∑ j ∈ Finset.range imgPts.length,
          Camera.specPerPointDist c rod (objPts.getD j V3.zero)
            (imgPts.getD j V2.zero) rv tv := by
  simp only [Camera.viewErrSum]
  refine Finset.sum_congr rfl ?_
  intro j hj
  have hj' : j < objPts.length := by
    rw [hcnt]
    exact Finset.mem_range.mp hj
  have hest := projectPoints_getD c rod objPts rv tv [] j hj'
  simp only [List.length_nil, Nat.zero_add] at hest
  rw [hest, Camera.specPerPointDist, vnorm_sub_eq_specEuclidDist]

/-- The multi-view aggregate is the total summed per-point distance across
all views divided by the total point count across all views. -/
theorem reprojectionErrorViews_agg (c : Camera) (rod : V3 → M33)
    (OPs : List (List V3)) (IPs : List (List V2)) (rvs tvs : List V3)
    (hcnt : ∀ i, i < OPs.length →
      (OPs.getD i []).length = (IPs.getD i []).length) (b : Bool) :
    (c.reprojectionErrorViews rod OPs IPs rvs tvs b).1
      = (∑ i ∈ Finset.range OPs.length,
           ∑ j ∈ Finset.range ((IPs.getD i []).length),
             Camera.specPerPointDist c rod ((OPs.getD i []).getD j V3.zero)
               ((IPs.getD i []).getD j V2.zero) (rvs.getD i V3.zero)
               (tvs.getD i V3.zero))
        / (∑ i ∈ Finset.range OPs.length, ((IPs.getD i []).length : ℝ)) := by
  simp only [Camera.reprojectionErrorViews]
  congr 1
  refine Finset.sum_congr rfl ?_
  intro i hi
  exact viewErrSum_eq c rod _ _ _ _ (hcnt i (Finset.mem_range.mp hi))

/-- The requested per-view error of view `i` is that view's summed
per-point distance divided by that view's point count. -/
theorem reprojectionErrorViews_perView (c : Camera) (rod : V3 → M33)
    (OPs : List (List V3)) (IPs : List (List V2)) (rvs tvs : List V3)
    (hcnt : ∀ i, i < OPs.length →
      (OPs.getD i []).length = (IPs.getD i []).length)
    (i : ℕ) (hi : i < OPs.length) :
    ((c.reprojectionErrorViews rod OPs IPs rvs tvs true).2).getD i 0
      = (∑ j ∈ Finset.range ((IPs.getD i []).length),
           Camera.specPerPointDist c rod ((OPs.getD i []).getD j V3.zero)
             ((IPs.getD i []).getD j V2.zero) (rvs.getD i V3.zero)
             (tvs.getD i V3.zero))
        / ((IPs.getD i []).length : ℝ) := by
  simp only [Camera.reprojectionErrorViews, if_true]
  rw [List.getD_eq_getElem?_getD, List.getElem?_map, List.getElem?_range hi]
  simp only [Option.map_some', Option.getD_some]
  rw [viewErrSum_eq c rod _ _ _ _ (hcnt i hi)]

/-- C3: under matching per-view counts and index-aligned pose collections,
the multi-view `reprojectionError` aggregate is the total summed per-point
pixel distance divided by the total point count (not the mean of per-view
means), the requested per-view error is the view's summed distance over
the view's count, and with two views of 3 and 5 points whose per-point
distances all equal `e` the aggregate is exactly `e`. -/
theorem reprojectionError_views_spec (c : Camera) (rod : V3 → M33)
    (OPs : List (List V3)) (IPs : List (List V2)) (rvs tvs : List V3)
    (hIP : IPs.length = OPs.length) (hrv : rvs.length = OPs.length)
    (htv : tvs.length = OPs.length)
    (hcnt : ∀ i, i < OPs.length →
      (OPs.getD i []).length = (IPs.getD i []).length) :
    ((c.reprojectionErrorViews rod OPs IPs rvs tvs true).1
      = (∑ i ∈ Finset.range OPs.length,
           ∑ j ∈ Finset.range ((IPs.getD i []).length),
             Camera.specPerPointDist c rod ((OPs.getD i []).getD j V3.zero)
               ((IPs.getD i []).getD j V2.zero) (rvs.getD i V3.zero)
               (tvs.getD i V3.zero))
        / (∑ i ∈ Finset.range OPs.length, ((IPs.getD i []).length : ℝ)))
    ∧ (∀ i, i < OPs.length →
        ((c.reprojectionErrorViews rod OPs IPs rvs tvs true).2).getD i 0
          = (∑ j ∈ Finset.range ((IPs.getD i []).length),
               Camera.specPerPointDist c rod ((OPs.getD i []).getD j V3.zero)
                 ((IPs.getD i []).getD j V2.zero) (rvs.getD i V3.zero)
                 (tvs.getD i V3.zero))
            / ((IPs.getD i []).length : ℝ))
    ∧ (∀ (OP1 OP2 : List V3) (IP1 IP2 : List V2) (rv1 rv2 tv1 tv2 : V3)
         (e : ℝ),
        OP1.length = 3 → IP1.length = 3 → OP2.length = 5 → IP2.length = 5 →
        (∀ j, j < 3 → Camera.specPerPointDist c rod (OP1.getD j V3.zero)
            (IP1.getD j V2.zero) rv1 tv1 = e) →
        (∀ j, j < 5 → Camera.specPerPointDist c rod (OP2.getD j V3.zero)
            (IP2.getD j V2.zero) rv2 tv2 = e) →
        (c.reprojectionErrorViews rod [OP1, OP2] [IP1, IP2] [rv1, rv2]
            [tv1, tv2] true).1 = e) := by
  refine ⟨reprojectionErrorViews_agg c rod OPs IPs rvs tvs hcnt true,
    fun i hi => reprojectionErrorViews_perView c rod OPs IPs rvs tvs hcnt i hi,
    ?_⟩
  intro OP1 OP2 IP1 IP2 rv1 rv2 tv1 tv2 e hO1 hI1 hO2 hI2 hd1 hd2
  have hcnt2 : ∀ i, i < ([OP1, OP2] : List (List V3)).length →
      (([OP1, OP2] : List (List V3)).getD i []).length
        = (([IP1, IP2] : List (List V2)).getD i []).length := by
    intro i hi
    simp only [List.length_cons, List.length_nil] at hi
    interval_cases i <;> simp [hO1, hI1, hO2, hI2]
  rw [reprojectionErrorViews_agg c rod [OP1, OP2] [IP1, IP2] [rv1, rv2]
    [tv1, tv2] hcnt2 true]
  simp only [List.length_cons, List.length_nil, List.getD_cons_zero,
    List.getD_cons_succ, Nat.zero_add, Nat.reduceAdd]
  rw [Finset.sum_range_succ, Finset.sum_range_succ, Finset.sum_range_zero,
    Finset.sum_range_succ, Finset.sum_range_succ, Finset.sum_range_zero]
  simp only [List.getD_cons_zero, List.getD_cons_succ]
  have s1 : ∑ j ∈ Finset.range IP1.length,
      Camera.specPerPointDist c rod (OP1.getD j V3.zero)
        (IP1.getD j V2.zero) rv1 tv1 = 3 * e := by
    rw [hI1]
    rw [Finset.sum_congr rfl (fun j hj => hd1 j (Finset.mem_range.mp hj))]
    simp [Finset.sum_const, Finset.card_range, nsmul_eq_mul]
  have s2 : ∑ j ∈ Finset.range IP2.length,
      Camera.specPerPointDist c rod (OP2.getD j V3.zero)
        (IP2.getD j V2.zero) rv2 tv2 = 5 * e := by
    rw [hI2]
    rw [Finset.sum_congr rfl (fun j hj => hd2 j (Finset.mem_range.mp hj))]
    simp [Finset.sum_const, Finset.card_range, nsmul_eq_mul]
  rw [s1, s2, hI1, hI2]
  push_cast
  rw [div_eq_iff (by norm_num : (0:ℝ) + 3 + 5 ≠ 0)]
  ring

/-- C3 witness: two concrete views with 3 and 5 coinciding correspondences
(per-point distance 0 everywhere) give aggregate error exactly 0. -/
theorem reprojectionError_views_spec_witness :
    (camW.reprojectionErrorViews rodW [OP3W, OP5W] [IP3W, IP5W]
        [V3.zero, V3.zero] [V3.zero, V3.zero] true).1 = 0 :=
  (reprojectionError_views_spec camW rodW [OP3W, OP5W] [IP3W, IP5W]
      [V3.zero, V3.zero] [V3.zero, V3.zero] rfl rfl rfl
      (by
        intro i hi
        simp only [List.length_cons, List.length_nil] at hi
        interval_cases i <;> rfl)).2.2
    OP3W OP5W IP3W IP5W V3.zero V3.zero V3.zero V3.zero 0 rfl rfl rfl rfl
    (by
      intro j hj
      interval_cases j <;>
        norm_num [Camera.specPerPointDist, specEuclidDist, camW, rodW,
          M33.eye, M33.mulVec, V3.add, V3.zero, OP3W, IP3W, Real.sqrt_zero])
    (by
      intro j hj
      interval_cases j <;>
        norm_num [Camera.specPerPointDist, specEuclidDist, camW, rodW,
          M33.eye, M33.mulVec, V3.add, V3.zero, OP5W, IP5W, Real.sqrt_zero])

end MynteyeModels
